import Mathlib

/-!
3D Globe Audio Visualizer: a model of `script.js`.

The module state of `script.js` (its `let` globals together with the parts of
the scene, the audio graph and the DOM that its functions write) is one record,
`State`; each function of the script is a function on that record.

Conventions of the embedding:

* JavaScript numbers are exact rationals (`ℚ`); `0.002` is `1/500`.  The
  rounding of double arithmetic and of the `Float32Array` behind the position
  attribute is not part of the model; the theorems are about what does not
  depend on it: values written back unchanged, thresholds, and inequalities
  that hold with a margin.
* `Math.sin`, `Math.cos` are parameters (`JSMath`); `Math.random()`,
  `Date.now()`, the analyser's byte spectrum, the dashboard inputs and
  `controls.update()` are inputs of a frame (`FrameEnv`).
* `sphereMesh.geometry.attributes.position` is a list of vertices read and
  written through `getX/getY/getZ` and `setX/setY/setZ`; its `count` is the
  length of the list.  `originalPositions` is the flat array of the script.
* Every handler runs after `init()`, so `sphereMesh`, `starSystem`, `camera`
  and `controls` exist and the guards `if (sphereMesh)`, `if (starSystem)`
  take their true branch.
* The asynchronous operations (`getUserMedia`, `FileReader`,
  `decodeAudioData`) are pending-request counters; their completions are
  events of their own, enabled only while a request is pending.
-/

namespace GlobeVisualizer

/-! ## Scene data -/

/-- One vertex of a position attribute, or the camera position. -/
structure Vec3 where
  x : ℚ
  y : ℚ
  z : ℚ
  deriving DecidableEq, Repr

/-- The last value given to `sphereMesh.material.color`: `setHSL(h, s, l)` or
`set(value)` with the colour-picker string. -/
inductive Color where
  | hex (value : Nat)
  | hsl (h s l : ℚ)
  | css (value : String)
  deriving DecidableEq, Repr

/-- `for (let i = 0; i < n; i++) body`, threading the mutated value. -/
def forLoop {σ : Type} (n : Nat) (body : Nat → σ → σ) (init : σ) : σ :=
  (List.range n).foldl (fun acc i => body i acc) init

/-- `positionAttribute.getX(i)`. -/
def getX (pos : List Vec3) (i : Nat) : ℚ := (pos.getD i ⟨0, 0, 0⟩).x

/-- `positionAttribute.getY(i)`. -/
def getY (pos : List Vec3) (i : Nat) : ℚ := (pos.getD i ⟨0, 0, 0⟩).y

/-- `positionAttribute.getZ(i)`. -/
def getZ (pos : List Vec3) (i : Nat) : ℚ := (pos.getD i ⟨0, 0, 0⟩).z

/-- `positionAttribute.setX(i, v)`: a write past the end of the typed array is
dropped.  The value is kept as given.  The `Float32Array` of the attribute
rounds it to float32, which changes nothing for a value that is a float32
already: one read from the attribute, as in the reset loop of `stopAudio`, or
such a value multiplied by a noise of 1. -/
def setX (pos : List Vec3) (i : Nat) (v : ℚ) : List Vec3 :=
  match pos[i]? with
  | some p => pos.set i { p with x := v }
  | none => pos

/-- `positionAttribute.setY(i, v)`, as `setX`. -/
def setY (pos : List Vec3) (i : Nat) (v : ℚ) : List Vec3 :=
  match pos[i]? with
  | some p => pos.set i { p with y := v }
  | none => pos

/-- `positionAttribute.setZ(i, v)`, as `setX`. -/
def setZ (pos : List Vec3) (i : Nat) (v : ℚ) : List Vec3 :=
  match pos[i]? with
  | some p => pos.set i { p with z := v }
  | none => pos

/-- `originalPositions[j]` of the flat array. -/
def readFlat (a : List ℚ) (j : Nat) : ℚ := a.getD j 0

/-! ## Audio graph -/

/-- A source node of the audio graph.  `hasStop` tells an
`AudioBufferSourceNode` (created by `createBufferSource`) from a
`MediaStreamAudioSourceNode` (created by `createMediaStreamSource`), which has
a `mediaStream` and no `stop`. -/
structure SourceNode where
  id : Nat
  hasStop : Bool
  toAnalyser : Bool
  toDestination : Bool
  playing : Bool
  tracksLive : Bool
  deriving DecidableEq, Repr

/-- The module state of `script.js` after `init()`. -/
structure State where
  position : List Vec3
  originalPositions : List ℚ
  sphereRotationY : ℚ
  starRotationX : ℚ
  starRotationY : ℚ
  camera : Vec3
  materialColor : Color
  colorHue : ℚ
  audioContext : Bool
  graph : List SourceNode
  currentSource : Option Nat
  isAudioRunning : Bool
  statusText : String
  statusColor : String
  dropOverlayHidden : Bool
  pendingMic : Nat
  pendingRead : Nat
  pendingDecode : Nat
  deriving DecidableEq, Repr

/-- `createMainSphere`, the loop that fills `originalPositions` from the
position attribute of the new geometry. -/
def createMainSphere (geometry : List Vec3) : List ℚ :=
  forLoop geometry.length
    (fun i acc => acc ++ [getX geometry i, getY geometry i, getZ geometry i]) []

/-- The state left by `init()` for a sphere geometry with the given vertices:
camera at `z = 4`, material colour `0x00ffcc`, no audio context, no source. -/
def init (geometry : List Vec3) : State :=
  { position := geometry
    originalPositions := createMainSphere geometry
    sphereRotationY := 0
    starRotationX := 0
    starRotationY := 0
    camera := ⟨0, 0, 4⟩
    materialColor := Color.hex 0x00ffcc
    colorHue := 0
    audioContext := false
    graph := []
    currentSource := none
    isAudioRunning := false
    statusText := ""
    statusColor := ""
    dropOverlayHidden := true
    pendingMic := 0
    pendingRead := 0
    pendingDecode := 0 }

/-- `getAudioContext`: creates the context, the analyser (`fftSize = 512`) and
`dataArray` on first use. -/
def getAudioContext (s : State) : State :=
  if !s.audioContext then { s with audioContext := true } else s

/-- `AudioBufferSourceNode.stop()`: throws when the node was never started. -/
def nodeStop (n : SourceNode) : Except String SourceNode :=
  if n.playing then .ok { n with playing := false }
  else .error "InvalidStateError"

/-- The body of `if (currentSource) { ... }` in `stopAudio`, on the node that
`currentSource` refers to: `disconnect()`, then `stop()` inside `try/catch`
when the node has one, then stopping the tracks of `mediaStream` when the node
has one. -/
def teardownNode (n : SourceNode) : SourceNode :=
  let n1 := { n with toAnalyser := false, toDestination := false }
  let n2 :=
    if n1.hasStop then
      match nodeStop n1 with
      | .ok m => m
      | .error _ => n1
    else n1
  if !n2.hasStop then { n2 with tracksLive := false } else n2

/-- The reset loop of `stopAudio` over the position attribute. -/
def resetPositions (pos : List Vec3) (originalPositions : List ℚ) : List Vec3 :=
  forLoop pos.length
    (fun i p =>
      setZ (setY (setX p i (readFlat originalPositions (i * 3)))
        i (readFlat originalPositions (i * 3 + 1)))
        i (readFlat originalPositions (i * 3 + 2)))
    pos

/-- `stopAudio`. -/
def stopAudio (s : State) : State :=
  let s1 :=
    match s.currentSource with
    | some c =>
      { s with
        graph := s.graph.map (fun (n : SourceNode) => if n.id = c then teardownNode n else n)
        currentSource := none }
    | none => s
  { s1 with
    isAudioRunning := false
    statusText := "Stopped"
    statusColor := "#aaa"
    position := resetPositions s1.position s1.originalPositions }

/-! ## The animation frame -/

/-- The two functions of `Math` that `animate` calls on varying arguments. -/
structure JSMath where
  sin : ℚ → ℚ
  cos : ℚ → ℚ

/-- What one call of `animate` reads from outside the module state:
`controls.update()` as its effect on the camera position, the auto-colour
checkbox, the colour-picker value, the bytes `getByteFrequencyData` puts in
`dataArray` (256 bins, `fftSize / 2`), `parseFloat(sensitivityInput.value)`,
the three `Math.random()` draws of the shake, and `Date.now()` as read in the
`i`-th iteration of the vertex loop. -/
structure FrameEnv where
  controlsUpdate : Vec3 → Vec3
  autoColorChecked : Bool
  meshColorValue : String
  dataArray : Fin 256 → Fin 256
  sensitivity : ℚ
  random1 : ℚ
  random2 : ℚ
  random3 : ℚ
  now : Nat → Nat

/-- `dataArray[i]` as a number. -/
def readByte (dataArray : Fin 256 → Fin 256) (i : Nat) : ℚ :=
  if h : i < 256 then ((dataArray ⟨i, h⟩).val : ℚ) else 0

/-- Truncation toward zero. -/
def jsTrunc (q : ℚ) : ℤ := if 0 ≤ q then ⌊q⌋ else ⌈q⌉

/-- The remainder operator `a % b` on numbers: the result has the sign of the
dividend. -/
def jsMod (a b : ℚ) : ℚ := a - b * (jsTrunc (a / b) : ℚ)

/-- The colour block of `animate` (`if (sphereMesh) { ... }`).  The addition
is exact here; the script adds doubles, so over many frames its `colorHue`
differs from the exact sum in the last digits. -/
def colorStep (env : FrameEnv) (s : State) : State :=
  if env.autoColorChecked then
    let colorHue := s.colorHue + 0.002
    { s with
      colorHue := colorHue
      materialColor := Color.hsl (jsMod colorHue 1) 1 0.5 }
  else
    { s with materialColor := Color.css env.meshColorValue }

/-- `averageFreq` of a frame. -/
def averageFreq (dataArray : Fin 256 → Fin 256) : ℚ :=
  forLoop 256 (fun i acc => acc + readByte dataArray i) 0 / 256

/-- `distortionStrength` of a frame. -/
def distortionStrength (bassFreq sensitivity : ℚ) : ℚ :=
  max 0 (bassFreq / 255 * sensitivity)

/-- `noise` of one vertex. -/
def noise (m : JSMath) (px py : ℚ) (now : Nat) (distortionStrength : ℚ) : ℚ :=
  1 + m.sin (px * 5 + (now : ℚ) * 0.002) * m.cos (py * 5) * (distortionStrength * 0.5)

/-- The camera-shake block of `animate`. -/
def cameraShake (env : FrameEnv) (bassFreq : ℚ) (camera : Vec3) : Vec3 :=
  if bassFreq > 230 then
    let shakeIntensity := 0.05 * (env.sensitivity * 0.5)
    { x := camera.x + (env.random1 - 0.5) * shakeIntensity
      y := camera.y + (env.random2 - 0.5) * shakeIntensity
      z := camera.z + (env.random3 - 0.5) * shakeIntensity }
  else camera

/-- The vertex loop of `animate`. -/
def distortPositions (m : JSMath) (env : FrameEnv) (distortionStrength : ℚ)
    (pos : List Vec3) (originalPositions : List ℚ) : List Vec3 :=
  forLoop pos.length
    (fun i p =>
      let px := readFlat originalPositions (i * 3)
      let py := readFlat originalPositions (i * 3 + 1)
      let pz := readFlat originalPositions (i * 3 + 2)
      let noise := noise m px py (env.now i) distortionStrength
      setZ (setY (setX p i (px * noise)) i (py * noise)) i (pz * noise))
    pos

/-- The block `if (isAudioRunning && analyser) { ... } else { ... }` of
`animate`. -/
def audioStep (m : JSMath) (env : FrameEnv) (s : State) : State :=
  if s.isAudioRunning && s.audioContext then
    let averageFreq := averageFreq env.dataArray
    let sensitivity := env.sensitivity
    let bassFreq := readByte env.dataArray 10
    let distortionStrength := distortionStrength bassFreq sensitivity
    { s with
      camera := cameraShake env bassFreq s.camera
      position := distortPositions m env distortionStrength s.position s.originalPositions
      starRotationY := s.starRotationY + (0.001 + averageFreq * 0.0001)
      starRotationX := s.starRotationX + 0.0005
      sphereRotationY := s.sphereRotationY + 0.002 }
  else
    { s with
      sphereRotationY := s.sphereRotationY + 0.002
      starRotationY := s.starRotationY + 0.0005 }

/-- `controls.update()`, the first statement of `animate`. -/
def controlsStep (env : FrameEnv) (s : State) : State :=
  { s with camera := env.controlsUpdate s.camera }

/-- `animate`, one frame: `controls.update()`, the colour block, the audio
block (rendering leaves the state alone). -/
def animate (m : JSMath) (env : FrameEnv) (s : State) : State :=
  audioStep m env (colorStep env (controlsStep env s))

/-! ## Starting a source -/

/-- `startMicrophone` up to its `await`: `stopAudio()`, `getAudioContext()`,
and the `getUserMedia` request left pending. -/
def startMicrophone (s : State) : State :=
  let s1 := getAudioContext (stopAudio s)
  { s1 with pendingMic := s1.pendingMic + 1 }

/-- `startMicrophone` after its `await`, the request granted: a new
`MediaStreamAudioSourceNode` becomes `currentSource` and is connected to the
analyser. -/
def startMicrophoneGranted (s : State) : State :=
  let node : SourceNode :=
    { id := s.graph.length, hasStop := false, toAnalyser := true
      toDestination := false, playing := false, tracksLive := true }
  { s with
    pendingMic := s.pendingMic - 1
    graph := s.graph ++ [node]
    currentSource := some node.id
    isAudioRunning := true
    statusText := "Listening to Mic..."
    statusColor := "#00ffcc" }

/-- `startMicrophone` after its `await`, the request rejected: the `catch`
block. -/
def startMicrophoneDenied (s : State) : State :=
  { s with
    pendingMic := s.pendingMic - 1
    statusText := "Mic Error / Denied"
    statusColor := "red" }

/-- `playAudioFile` up to `reader.readAsArrayBuffer(file)`. -/
def playAudioFile (s : State) : State :=
  let s1 := stopAudio s
  { s1 with
    statusText := "Loading File..."
    statusColor := "yellow"
    pendingRead := s1.pendingRead + 1 }

/-- `reader.onload`: `getAudioContext()` and the `decodeAudioData` request. -/
def readerOnload (s : State) : State :=
  let s1 := getAudioContext s
  { s1 with pendingRead := s1.pendingRead - 1, pendingDecode := s1.pendingDecode + 1 }

/-- `startFilePlayback`: a new looping `AudioBufferSourceNode`, connected to the
analyser and to the destination, started, then made `currentSource`. -/
def startFilePlayback (s : State) : State :=
  let s1 := getAudioContext s
  let source : SourceNode :=
    { id := s1.graph.length, hasStop := true, toAnalyser := true
      toDestination := true, playing := true, tracksLive := false }
  { s1 with
    graph := s1.graph ++ [source]
    currentSource := some source.id
    isAudioRunning := true
    statusText := "Playing File"
    statusColor := "#00ffcc" }

/-- The success callback of `decodeAudioData`. -/
def decodeSucceeded (s : State) : State :=
  startFilePlayback { s with pendingDecode := s.pendingDecode - 1 }

/-- The error callback of `decodeAudioData`. -/
def decodeFailed (s : State) : State :=
  { s with
    pendingDecode := s.pendingDecode - 1
    statusText := "Error Decoding File"
    statusColor := "red" }

/-- `file.type.startsWith('audio/')` on the declared media type. -/
def startsWithAudio (type : String) : Bool :=
  "audio/".toList.isPrefixOf type.toList

/-- `handleDrop`; the argument is the declared type of `dt.files[0]`, or `none`
when the drop carries no file. -/
def handleDrop (file : Option String) (s : State) : State :=
  let s1 := { s with dropOverlayHidden := true }
  match file with
  | some type =>
    if startsWithAudio type then playAudioFile s1
    else { s1 with statusText := "Not an audio file!", statusColor := "red" }
  | none => { s1 with statusText := "Not an audio file!", statusColor := "red" }

/-! ## Events -/

/-- What can happen to the page: the two buttons, a drop, the completion of
each asynchronous request, and an animation frame. -/
inductive Event where
  | clickStart
  | micGranted
  | micDenied
  | drop (file : Option String)
  | fileRead
  | fileReadFailed
  | decodeSucceeded
  | decodeFailed
  | clickStop
  | frame (env : FrameEnv)

/-- One event.  A completion is possible only while a request of its kind is
pending; a failed read has no handler and only ends the request. -/
def step (m : JSMath) (s : State) : Event → Option State
  | .clickStart => some (startMicrophone s)
  | .micGranted => if 0 < s.pendingMic then some (startMicrophoneGranted s) else none
  | .micDenied => if 0 < s.pendingMic then some (startMicrophoneDenied s) else none
  | .drop file => some (handleDrop file s)
  | .fileRead => if 0 < s.pendingRead then some (readerOnload s) else none
  | .fileReadFailed =>
    if 0 < s.pendingRead then some { s with pendingRead := s.pendingRead - 1 } else none
  | .decodeSucceeded => if 0 < s.pendingDecode then some (decodeSucceeded s) else none
  | .decodeFailed => if 0 < s.pendingDecode then some (decodeFailed s) else none
  | .clickStop => some (stopAudio s)
  | .frame env => some (animate m env s)

/-- A sequence of events from a state; `none` when some event of the sequence
was not possible where it stands. -/
def run (m : JSMath) (s : State) : List Event → Option State
  | [] => some s
  | e :: es => (step m s e).bind (fun s1 => run m s1 es)

/-- A start event: a click on the start button or the drop of a file that
`handleDrop` passes to `playAudioFile`. -/
def Event.isStart : Event → Bool
  | .clickStart => true
  | .drop (some type) => startsWithAudio type
  | _ => false

/-- The source nodes whose output reaches the analyser. -/
def feedingAnalyser (s : State) : List SourceNode :=
  s.graph.filter (fun n => n.toAnalyser)

/-- The flat array that `createMainSphere` builds from a list of vertices. -/
def flatten3 : List Vec3 → List ℚ
  | [] => []
  | v :: vs => v.x :: v.y :: v.z :: flatten3 vs

/-- The vertex stored at index `i` of a flat array: the `px, py, pz` that the
loops of `stopAudio` and `animate` read from `originalPositions`. -/
def vertexAt (a : List ℚ) (i : Nat) : Vec3 :=
  ⟨readFlat a (i * 3), readFlat a (i * 3 + 1), readFlat a (i * 3 + 2)⟩

/-- The vertex that the loop of `animate` writes at index `i`. -/
def distortedVertex (m : JSMath) (env : FrameEnv) (distortionStrength : ℚ)
    (a : List ℚ) (i : Nat) : Vec3 :=
  let v := vertexAt a i
  let k := noise m v.x v.y (env.now i) distortionStrength
  ⟨v.x * k, v.y * k, v.z * k⟩

/-- The geometry invariant: `originalPositions` is the flat copy of the
reference geometry `g`, the live buffer has as many vertices, and without audio
the live buffer is `g`. -/
def GeometryInv (g : List Vec3) (s : State) : Prop :=
  s.originalPositions = flatten3 g ∧ s.position.length = g.length
    ∧ (s.isAudioRunning = false → s.position = g)

/-- Sample `Math`: rational stand-ins for sine and cosine with values in
`[-1, 1]` (the half-angle parametrisation of the circle). -/
def sampleMath : JSMath :=
  { sin := fun x => 2 * x / (1 + x ^ 2)
    cos := fun x => (1 - x ^ 2) / (1 + x ^ 2) }

/-- Sample geometry: three vertices of a sphere of radius 2. -/
def sampleGeometry : List Vec3 := [⟨2, 0, 0⟩, ⟨0, 2, 0⟩, ⟨0, 0, 2⟩]

/-- Sample frame input: silence on every bin. -/
def quietEnv : FrameEnv :=
  { controlsUpdate := fun c => c
    autoColorChecked := true
    meshColorValue := "#00ffcc"
    dataArray := fun _ => 0
    sensitivity := 1
    random1 := 0
    random2 := 1 / 2
    random3 := 3 / 4
    now := fun i => 1000 + i }

/-- Sample frame input: every bin at 231. -/
def loudEnv : FrameEnv :=
  { quietEnv with dataArray := fun _ => 231 }

/-- Sample state: the microphone was started on the sample geometry and its
request granted. -/
def micActive : State :=
  startMicrophoneGranted (startMicrophone (init sampleGeometry))

/-- Sample state: the microphone active and one loud frame drawn. -/
def micDistorted : State := animate sampleMath loudEnv micActive

/-- Sample frame input: every bin at 230, the largest value without shake. -/
def thresholdEnv : FrameEnv :=
  { quietEnv with dataArray := fun _ => 230 }

/-- Consecutive frames, one per frame input. -/
def frames (m : JSMath) (envs : List FrameEnv) (s : State) : State :=
  envs.foldl (fun acc env => animate m env acc) s

/-- The completions that activate a source: the microphone request granted,
the decode succeeded. -/
def Event.isActivation : Event → Bool
  | .micGranted => true
  | .decodeSucceeded => true
  | _ => false

/-- The number of requests still pending. -/
def pendingRequests (s : State) : Nat := s.pendingMic + s.pendingRead + s.pendingDecode

/-- Sample state: the microphone requested, the request not answered yet. -/
def micRequested : State := startMicrophone (init sampleGeometry)

/-! ## Loops over the position attribute -/

theorem forLoop_zero {σ : Type} (body : Nat → σ → σ) (init : σ) :
    forLoop 0 body init = init := rfl

theorem forLoop_succ {σ : Type} (n : Nat) (body : Nat → σ → σ) (init : σ) :
    forLoop (n + 1) body init = body n (forLoop n body init) := by
  simp [forLoop, List.range_succ, List.foldl_append]

/-- The three writes of one loop iteration amount to one write of a vertex. -/
theorem setXYZ_eq (pos : List Vec3) (i : Nat) (a b c : ℚ) :
    setZ (setY (setX pos i a) i b) i c
      = if i < pos.length then pos.set i ⟨a, b, c⟩ else pos := by
  by_cases h : i < pos.length
  · simp [setX, setY, setZ, h, List.getElem?_eq_getElem]
  · have h1 : pos[i]? = none := by simp at h; simp [h]
    simp [setX, setY, setZ, h, h1]

/-- A loop that writes vertex `f i` at index `i`, for `i < n`. -/
theorem forLoop_write_getElem? (f : Nat → Vec3) (pos : List Vec3) (n : Nat) :
    (forLoop n (fun i p => if i < p.length then p.set i (f i) else p) pos).length = pos.length
    ∧ ∀ j, (forLoop n (fun i p => if i < p.length then p.set i (f i) else p) pos)[j]?
        = if j < n ∧ j < pos.length then some (f j) else pos[j]? := by
  induction n with
  | zero => simp [forLoop_zero]
  | succ n ih =>
    rw [forLoop_succ]
    obtain ⟨hl, hg⟩ := ih
    constructor
    · split <;> simp [hl]
    · intro j
      split
      · rename_i hlt
        rw [List.getElem?_set]
        by_cases hj : n = j
        · subst hj
          simp [hlt, hl ▸ hlt]
        · simp [hj, hg]
          have : j < n + 1 ↔ j < n := by omega
          simp [this]
      · rename_i hlt
        rw [hg, hl] at *
        have : (j < n + 1 ∧ j < pos.length) ↔ (j < n ∧ j < pos.length) := by omega
        simp [this]

theorem forLoop_write_eq (f : Nat → Vec3) (pos : List Vec3) :
    forLoop pos.length (fun i p => if i < p.length then p.set i (f i) else p) pos
      = (List.range pos.length).map f := by
  apply List.ext_getElem?
  intro j
  rw [(forLoop_write_getElem? f pos pos.length).2 j]
  by_cases h : j < pos.length
  · simp [h, List.getElem?_range]
  · have h2 : pos.length ≤ j := by omega
    have h3 : pos[j]? = none := List.getElem?_eq_none h2
    have h4 : (List.range pos.length)[j]? = none := List.getElem?_eq_none (by simpa using h2)
    simp [h, h3, h4]

theorem resetPositions_eq (pos : List Vec3) (a : List ℚ) :
    resetPositions pos a = (List.range pos.length).map (vertexAt a) := by
  unfold resetPositions
  simp only [setXYZ_eq]
  exact forLoop_write_eq (vertexAt a) pos

theorem flatten3_length (g : List Vec3) : (flatten3 g).length = 3 * g.length := by
  induction g with
  | nil => rfl
  | cons v vs ih => simp [flatten3, ih]; omega

theorem vertexAt_flatten3 (g : List Vec3) (i : Nat) (h : i < g.length) :
    vertexAt (flatten3 g) i = g[i] := by
  induction g generalizing i with
  | nil => simp at h
  | cons v vs ih =>
    cases i with
    | zero => simp [vertexAt, readFlat, flatten3]
    | succ k =>
      have hk : k < vs.length := by simpa using h
      have := ih k hk
      simp only [vertexAt, readFlat] at this ⊢
      have e1 : (k + 1) * 3 = (k * 3) + 1 + 1 + 1 := by ring
      have e2 : (k + 1) * 3 + 1 = (k * 3 + 1) + 1 + 1 + 1 := by ring
      have e3 : (k + 1) * 3 + 2 = (k * 3 + 2) + 1 + 1 + 1 := by ring
      rw [e2, e3, e1]
      simpa [flatten3, List.getD_cons_succ] using this

theorem map_vertexAt_flatten3 (g : List Vec3) :
    (List.range g.length).map (vertexAt (flatten3 g)) = g := by
  apply List.ext_getElem
  · simp
  · intro i h1 h2
    simp [vertexAt_flatten3 g i h2]

theorem flatten3_append (a b : List Vec3) : flatten3 (a ++ b) = flatten3 a ++ flatten3 b := by
  induction a with
  | nil => rfl
  | cons v vs ih => simp [flatten3, ih]

theorem createMainSphere_eq (g : List Vec3) : createMainSphere g = flatten3 g := by
  unfold createMainSphere
  have key : ∀ n, n ≤ g.length →
      forLoop n (fun i acc => acc ++ [getX g i, getY g i, getZ g i]) [] = flatten3 (g.take n) := by
    intro n
    induction n with
    | zero => intro _; simp [forLoop_zero, flatten3]
    | succ n ih =>
      intro hn
      have hlt : n < g.length := by omega
      rw [forLoop_succ, ih (by omega), List.take_succ, flatten3_append]
      simp [getX, getY, getZ, List.getElem?_eq_getElem hlt, List.getD_eq_getElem?_getD, flatten3]
  simpa using key g.length le_rfl

theorem distortPositions_eq (m : JSMath) (env : FrameEnv) (d : ℚ) (pos : List Vec3)
    (a : List ℚ) :
    distortPositions m env d pos a
      = (List.range pos.length).map (distortedVertex m env d a) := by
  unfold distortPositions
  simp only [setXYZ_eq]
  exact forLoop_write_eq (distortedVertex m env d a) pos

theorem getD_map_range (f : Nat → Vec3) (n i : Nat) (h : i < n) (d : Vec3) :
    ((List.range n).map f).getD i d = f i := by
  simp [List.getD_eq_getElem?_getD, List.getElem?_range, h]

theorem colorStep_fields (env : FrameEnv) (s : State) :
    (colorStep env s).position = s.position
    ∧ (colorStep env s).originalPositions = s.originalPositions
    ∧ (colorStep env s).isAudioRunning = s.isAudioRunning
    ∧ (colorStep env s).audioContext = s.audioContext
    ∧ (colorStep env s).camera = s.camera
    ∧ (colorStep env s).currentSource = s.currentSource
    ∧ (colorStep env s).graph = s.graph
    ∧ (colorStep env s).pendingMic = s.pendingMic
    ∧ (colorStep env s).pendingRead = s.pendingRead
    ∧ (colorStep env s).pendingDecode = s.pendingDecode := by
  unfold colorStep
  split <;> simp

theorem audioStep_fields (m : JSMath) (env : FrameEnv) (s : State) :
    (audioStep m env s).originalPositions = s.originalPositions
    ∧ (audioStep m env s).isAudioRunning = s.isAudioRunning
    ∧ (audioStep m env s).audioContext = s.audioContext
    ∧ (audioStep m env s).currentSource = s.currentSource
    ∧ (audioStep m env s).graph = s.graph
    ∧ (audioStep m env s).pendingMic = s.pendingMic
    ∧ (audioStep m env s).pendingRead = s.pendingRead
    ∧ (audioStep m env s).pendingDecode = s.pendingDecode
    ∧ (audioStep m env s).position.length = s.position.length := by
  unfold audioStep
  split <;> simp [distortPositions_eq]

theorem animate_fields (m : JSMath) (env : FrameEnv) (s : State) :
    (animate m env s).originalPositions = s.originalPositions
    ∧ (animate m env s).isAudioRunning = s.isAudioRunning
    ∧ (animate m env s).audioContext = s.audioContext
    ∧ (animate m env s).currentSource = s.currentSource
    ∧ (animate m env s).graph = s.graph
    ∧ (animate m env s).pendingMic = s.pendingMic
    ∧ (animate m env s).pendingRead = s.pendingRead
    ∧ (animate m env s).pendingDecode = s.pendingDecode
    ∧ (animate m env s).position.length = s.position.length := by
  obtain ⟨h1, h2, h3, h4, h5, h6, h7, h8, h9, h10⟩ := colorStep_fields env (controlsStep env s)
  obtain ⟨a1, a2, a3, a4, a5, a6, a7, a8, a9⟩ :=
    audioStep_fields m env (colorStep env (controlsStep env s))
  unfold animate
  rw [a1, a2, a3, a4, a5, a6, a7, a8, a9, h1, h2, h3, h4, h6, h7, h8, h9, h10]
  simp [controlsStep]

theorem animate_position_active (m : JSMath) (env : FrameEnv) (s : State)
    (hrun : s.isAudioRunning = true) (hctx : s.audioContext = true) :
    (animate m env s).position
      = (List.range s.position.length).map
          (distortedVertex m env
            (distortionStrength (readByte env.dataArray 10) env.sensitivity)
            s.originalPositions) := by
  obtain ⟨h1, h2, h3, h4, -⟩ := colorStep_fields env (controlsStep env s)
  have e3 : (colorStep env (controlsStep env s)).isAudioRunning = true := by
    rw [h3]; exact hrun
  have e4 : (colorStep env (controlsStep env s)).audioContext = true := by
    rw [h4]; exact hctx
  unfold animate audioStep
  rw [e3, e4]
  simp only [Bool.and_self, if_true, distortPositions_eq, h1, h2]
  rfl

theorem animate_position_idle (m : JSMath) (env : FrameEnv) (s : State)
    (h : (s.isAudioRunning && s.audioContext) = false) :
    (animate m env s).position = s.position := by
  obtain ⟨h1, h2, h3, h4, -⟩ := colorStep_fields env (controlsStep env s)
  have e : ((colorStep env (controlsStep env s)).isAudioRunning
      && (colorStep env (controlsStep env s)).audioContext) = false := by
    rw [h3, h4]; exact h
  unfold animate audioStep
  rw [e]
  simp only [Bool.false_eq_true, if_false, h1]
  rfl

theorem noise_zero (m : JSMath) (px py : ℚ) (t : Nat) : noise m px py t 0 = 1 := by
  simp [noise]

theorem distortionStrength_zero (b sens : ℚ) (h : b = 0 ∨ sens = 0) :
    distortionStrength b sens = 0 := by
  rcases h with h | h <;> simp [distortionStrength, h]

theorem stopAudio_fields (s : State) :
    (stopAudio s).isAudioRunning = false
    ∧ (stopAudio s).currentSource = none
    ∧ (stopAudio s).originalPositions = s.originalPositions
    ∧ (stopAudio s).position = (List.range s.position.length).map (vertexAt s.originalPositions)
    ∧ (stopAudio s).audioContext = s.audioContext
    ∧ (stopAudio s).pendingMic = s.pendingMic
    ∧ (stopAudio s).pendingRead = s.pendingRead
    ∧ (stopAudio s).pendingDecode = s.pendingDecode := by
  cases hc : s.currentSource <;> simp [stopAudio, hc, resetPositions_eq]

theorem resetPositions_idem (pos : List Vec3) (a : List ℚ) :
    resetPositions (resetPositions pos a) a = resetPositions pos a := by
  simp [resetPositions_eq]

theorem stopAudio_idem (s : State) : stopAudio (stopAudio s) = stopAudio s := by
  cases hc : s.currentSource <;> simp [stopAudio, hc, resetPositions_idem]

theorem getAudioContext_fields (s : State) :
    (getAudioContext s).audioContext = true
    ∧ (getAudioContext s).position = s.position
    ∧ (getAudioContext s).originalPositions = s.originalPositions
    ∧ (getAudioContext s).isAudioRunning = s.isAudioRunning
    ∧ (getAudioContext s).currentSource = s.currentSource
    ∧ (getAudioContext s).graph = s.graph
    ∧ (getAudioContext s).pendingMic = s.pendingMic
    ∧ (getAudioContext s).pendingRead = s.pendingRead
    ∧ (getAudioContext s).pendingDecode = s.pendingDecode := by
  unfold getAudioContext
  cases h : s.audioContext <;> simp [h]

theorem GeometryInv_init (g : List Vec3) : GeometryInv g (init g) := by
  simp [GeometryInv, init, createMainSphere_eq]

theorem GeometryInv_stopAudio {g : List Vec3} {s : State} (h : GeometryInv g s) :
    GeometryInv g (stopAudio s) ∧ (stopAudio s).position = g := by
  obtain ⟨h1, h2, h3, h4, -⟩ := stopAudio_fields s
  obtain ⟨i1, i2, _⟩ := h
  have hp : (stopAudio s).position = g := by
    rw [h4, i1, i2, map_vertexAt_flatten3]
  exact ⟨⟨by rw [h3, i1], by rw [hp], fun _ => hp⟩, hp⟩

theorem GeometryInv_of_eq {g : List Vec3} {s t : State} (h : GeometryInv g s)
    (ho : t.originalPositions = s.originalPositions) (hp : t.position = s.position)
    (hr : t.isAudioRunning = false → s.isAudioRunning = false) : GeometryInv g t := by
  obtain ⟨i1, i2, i3⟩ := h
  exact ⟨by rw [ho, i1], by rw [hp, i2], fun hf => by rw [hp]; exact i3 (hr hf)⟩

theorem GeometryInv_startMicrophone {g : List Vec3} {s : State} (h : GeometryInv g s) :
    GeometryInv g (startMicrophone s) := by
  obtain ⟨-, a2, a3, a4, -⟩ := getAudioContext_fields (stopAudio s)
  exact GeometryInv_of_eq (GeometryInv_stopAudio h).1 (by simp [startMicrophone, a3])
    (by simp [startMicrophone, a2]) (by simp [startMicrophone, a4])

theorem GeometryInv_playAudioFile {g : List Vec3} {s : State} (h : GeometryInv g s) :
    GeometryInv g (playAudioFile s) :=
  GeometryInv_of_eq (GeometryInv_stopAudio h).1 (by simp [playAudioFile])
    (by simp [playAudioFile]) (by simp [playAudioFile])

theorem GeometryInv_handleDrop {g : List Vec3} {s : State} (file : Option String)
    (h : GeometryInv g s) : GeometryInv g (handleDrop file s) := by
  have h1 : GeometryInv g { s with dropOverlayHidden := true } :=
    GeometryInv_of_eq h rfl rfl (fun hf => hf)
  unfold handleDrop
  cases file with
  | none => exact GeometryInv_of_eq h rfl rfl (fun hf => hf)
  | some type =>
    simp only []
    split
    · exact GeometryInv_playAudioFile h1
    · exact GeometryInv_of_eq h rfl rfl (fun hf => hf)

theorem GeometryInv_startFilePlayback {g : List Vec3} {s : State} (h : GeometryInv g s) :
    GeometryInv g (startFilePlayback s) := by
  obtain ⟨-, a2, a3, a4, -⟩ := getAudioContext_fields s
  exact GeometryInv_of_eq h (by simp [startFilePlayback, a3]) (by simp [startFilePlayback, a2])
    (by simp [startFilePlayback])

theorem GeometryInv_animate {g : List Vec3} {s : State} (m : JSMath) (env : FrameEnv)
    (h : GeometryInv g s) : GeometryInv g (animate m env s) := by
  obtain ⟨a1, a2, a3, a4, a5, a6, a7, a8, a9⟩ := animate_fields m env s
  obtain ⟨i1, i2, i3⟩ := h
  refine ⟨by rw [a1, i1], by rw [a9, i2], fun hf => ?_⟩
  rw [a2] at hf
  rw [animate_position_idle m env s (by simp [hf])]
  exact i3 hf

theorem GeometryInv_step {g : List Vec3} {s t : State} (m : JSMath) (e : Event)
    (h : GeometryInv g s) (hs : step m s e = some t) : GeometryInv g t := by
  cases e with
  | clickStart =>
    simp only [step, Option.some.injEq] at hs; subst hs
    exact GeometryInv_startMicrophone h
  | micGranted =>
    simp only [step] at hs
    split at hs
    · simp only [Option.some.injEq] at hs; subst hs
      exact GeometryInv_of_eq h rfl rfl (by simp [startMicrophoneGranted])
    · simp at hs
  | micDenied =>
    simp only [step] at hs
    split at hs
    · simp only [Option.some.injEq] at hs; subst hs
      exact GeometryInv_of_eq h rfl rfl (fun hf => hf)
    · simp at hs
  | drop file =>
    simp only [step, Option.some.injEq] at hs; subst hs
    exact GeometryInv_handleDrop file h
  | fileRead =>
    simp only [step] at hs
    split at hs
    · simp only [Option.some.injEq] at hs; subst hs
      obtain ⟨-, a2, a3, a4, -⟩ := getAudioContext_fields s
      exact GeometryInv_of_eq h (by simp [readerOnload, a3]) (by simp [readerOnload, a2])
        (by simp [readerOnload, a4])
    · simp at hs
  | fileReadFailed =>
    simp only [step] at hs
    split at hs
    · simp only [Option.some.injEq] at hs; subst hs
      exact GeometryInv_of_eq h rfl rfl (fun hf => hf)
    · simp at hs
  | decodeSucceeded =>
    simp only [step] at hs
    split at hs
    · simp only [Option.some.injEq] at hs; subst hs
      exact GeometryInv_startFilePlayback (GeometryInv_of_eq h rfl rfl (fun hf => hf))
    · simp at hs
  | decodeFailed =>
    simp only [step] at hs
    split at hs
    · simp only [Option.some.injEq] at hs; subst hs
      exact GeometryInv_of_eq h rfl rfl (fun hf => hf)
    · simp at hs
  | clickStop =>
    simp only [step, Option.some.injEq] at hs; subst hs
    exact (GeometryInv_stopAudio h).1
  | frame env =>
    simp only [step, Option.some.injEq] at hs; subst hs
    exact GeometryInv_animate m env h

theorem GeometryInv_run {g : List Vec3} (m : JSMath) (evs : List Event) :
    ∀ {s t : State}, GeometryInv g s → run m s evs = some t → GeometryInv g t := by
  induction evs with
  | nil =>
    intro s t h hr
    simp only [run, Option.some.injEq] at hr; subst hr; exact h
  | cons e es ih =>
    intro s t h hr
    simp only [run] at hr
    cases hs : step m s e with
    | none => simp [hs] at hr
    | some s1 =>
      rw [hs] at hr
      exact ih (GeometryInv_step m e h hs) hr

theorem getXYZ_map_range (f : Nat → Vec3) (n i : Nat) (h : i < n) :
    getX ((List.range n).map f) i = (f i).x ∧ getY ((List.range n).map f) i = (f i).y
      ∧ getZ ((List.range n).map f) i = (f i).z := by
  simp only [getX, getY, getZ, getD_map_range f n i h]
  exact ⟨trivial, trivial, trivial⟩

theorem distortedVertex_zero (m : JSMath) (env : FrameEnv) (a : List ℚ) (i : Nat) :
    distortedVertex m env 0 a i = vertexAt a i := by
  simp [distortedVertex, noise_zero]

/-- C1. In an audio-active frame whose bass bin is 0, or whose sensitivity is
0, or whose distortion strength is 0 for any other reason, the distortion
strength is 0, the noise factor of every vertex is exactly 1, the vertex count
is kept, and `animate` writes at every index `i` the reference vertex
`(originalPositions[3i], originalPositions[3i+1], originalPositions[3i+2])`;
when `originalPositions` is the copy of a geometry `g` made by
`createMainSphere`, the live buffer after the frame is `g`. -/
theorem zero_distortion_identity (m : JSMath) (env : FrameEnv) (s : State)
    (hrun : s.isAudioRunning = true) (hctx : s.audioContext = true)
    (hz : readByte env.dataArray 10 = 0 ∨ env.sensitivity = 0
      ∨ distortionStrength (readByte env.dataArray 10) env.sensitivity = 0) :
    distortionStrength (readByte env.dataArray 10) env.sensitivity = 0
    ∧ (∀ (px py : ℚ) (t : Nat),
        noise m px py t (distortionStrength (readByte env.dataArray 10) env.sensitivity) = 1)
    ∧ (animate m env s).position.length = s.position.length
    ∧ (∀ i, i < s.position.length →
        getX (animate m env s).position i = readFlat s.originalPositions (i * 3)
        ∧ getY (animate m env s).position i = readFlat s.originalPositions (i * 3 + 1)
        ∧ getZ (animate m env s).position i = readFlat s.originalPositions (i * 3 + 2))
    ∧ (∀ g : List Vec3, s.originalPositions = createMainSphere g →
        s.position.length = g.length → (animate m env s).position = g) := by
  have h0 : distortionStrength (readByte env.dataArray 10) env.sensitivity = 0 := by
    rcases hz with h | h | h
    · exact distortionStrength_zero _ _ (Or.inl h)
    · exact distortionStrength_zero _ _ (Or.inr h)
    · exact h
  have hpos := animate_position_active m env s hrun hctx
  rw [h0] at hpos
  have hpos2 : (animate m env s).position
      = (List.range s.position.length).map (vertexAt s.originalPositions) := by
    rw [hpos]
    exact List.map_congr_left (fun i _ => distortedVertex_zero m env _ i)
  refine ⟨h0, fun px py t => by rw [h0]; exact noise_zero m px py t, ?_, ?_, ?_⟩
  · rw [hpos2]; simp
  · intro i hi
    rw [hpos2]
    exact getXYZ_map_range (vertexAt s.originalPositions) s.position.length i hi
  · intro g ho hl
    rw [hpos2, ho, hl, createMainSphere_eq, map_vertexAt_flatten3]

theorem zero_distortion_identity_witness :
    micActive.isAudioRunning = true ∧ micActive.audioContext = true
    ∧ readByte quietEnv.dataArray 10 = 0
    ∧ (animate sampleMath quietEnv micActive).position = sampleGeometry :=
  have hb : readByte quietEnv.dataArray 10 = 0 := by simp [readByte, quietEnv]
  ⟨rfl, rfl, hb,
    (zero_distortion_identity sampleMath quietEnv micActive rfl rfl (Or.inl hb)).2.2.2.2
      sampleGeometry rfl rfl⟩

/-- C2. From the state left by `init` on a geometry `g`, after any sequence of
events (audio-active frames with any spectrum, sensitivity and clock among
them), `stopAudio` leaves the live vertex buffer equal to the reference
geometry: it has the same vertex count, it holds at every index `i` the values
`originalPositions[3i]`, `originalPositions[3i+1]`, `originalPositions[3i+2]`,
`originalPositions` is still the copy made by `createMainSphere`, and the
buffer is `g` itself. -/
theorem stopAudio_restores_reference (m : JSMath) (g : List Vec3) (evs : List Event)
    (s : State) (h : run m (init g) evs = some s) :
    (stopAudio s).position.length = s.position.length
    ∧ (∀ i, i < s.position.length →
        getX (stopAudio s).position i = readFlat (stopAudio s).originalPositions (i * 3)
        ∧ getY (stopAudio s).position i = readFlat (stopAudio s).originalPositions (i * 3 + 1)
        ∧ getZ (stopAudio s).position i = readFlat (stopAudio s).originalPositions (i * 3 + 2))
    ∧ (stopAudio s).originalPositions = createMainSphere g
    ∧ (stopAudio s).position = g := by
  have hinv : GeometryInv g s := GeometryInv_run m evs (GeometryInv_init g) h
  obtain ⟨h1, h2, h3, h4, -⟩ := stopAudio_fields s
  refine ⟨by rw [h4]; simp, ?_, ?_, (GeometryInv_stopAudio hinv).2⟩
  · intro i hi
    rw [h4, h3]
    exact getXYZ_map_range (vertexAt s.originalPositions) s.position.length i hi
  · rw [h3, hinv.1, createMainSphere_eq]

theorem readByte_loudEnv : readByte loudEnv.dataArray 10 = 231 := by
  have h : ((231 : Fin 256).val) = 231 := rfl
  simp [readByte, loudEnv, h]

theorem distortionStrength_loudEnv :
    distortionStrength (readByte loudEnv.dataArray 10) loudEnv.sensitivity = 231 / 255 := by
  rw [readByte_loudEnv]
  norm_num [distortionStrength, loudEnv, quietEnv]

theorem micDistorted_getX : getX micDistorted.position 0 ≠ 2 := by
  have hp := animate_position_active sampleMath loudEnv micActive rfl rfl
  rw [distortionStrength_loudEnv] at hp
  have hl : micActive.position.length = 3 := rfl
  have ho : micActive.originalPositions = [2, 0, 0, 0, 2, 0, 0, 0, 2] := by
    show createMainSphere sampleGeometry = _
    rw [createMainSphere_eq]; rfl
  rw [micDistorted, hp, hl, (getXYZ_map_range _ 3 0 (by decide)).1, ho]
  norm_num [distortedVertex, vertexAt, readFlat, noise, loudEnv, quietEnv, sampleMath]

theorem stopAudio_restores_reference_witness :
    run sampleMath (init sampleGeometry) [.clickStart, .micGranted, .frame loudEnv]
        = some micDistorted
    ∧ getX micDistorted.position 0 ≠ getX sampleGeometry 0
    ∧ (stopAudio micDistorted).position = sampleGeometry :=
  have hr : run sampleMath (init sampleGeometry) [.clickStart, .micGranted, .frame loudEnv]
      = some micDistorted := rfl
  ⟨hr, by simpa [getX, sampleGeometry] using micDistorted_getX,
    (stopAudio_restores_reference sampleMath sampleGeometry _ micDistorted hr).2.2.2⟩

/-- C6. `stopAudio` is a total function of the state (the only call in it that
can throw, `stop()`, sits in `try/catch`); from every state it ends Idle
(`isAudioRunning = false`, `currentSource = null`); applying it twice gives the
same state as applying it once; and from an Idle state it changes neither
`isAudioRunning` nor `currentSource`, nor the audio graph. -/
theorem stopAudio_idempotent (s : State) :
    (stopAudio s).isAudioRunning = false
    ∧ (stopAudio s).currentSource = none
    ∧ stopAudio (stopAudio s) = stopAudio s
    ∧ (s.isAudioRunning = false → s.currentSource = none →
        (stopAudio s).isAudioRunning = s.isAudioRunning
        ∧ (stopAudio s).currentSource = s.currentSource
        ∧ (stopAudio s).graph = s.graph) := by
  obtain ⟨h1, h2, -⟩ := stopAudio_fields s
  refine ⟨h1, h2, stopAudio_idem s, fun hr hc => ⟨by rw [h1, hr], by rw [h2, hc], ?_⟩⟩
  simp [stopAudio, hc]

theorem stopAudio_idempotent_witness :
    (stopAudio micDistorted).isAudioRunning = false
    ∧ (stopAudio micDistorted).currentSource = none
    ∧ stopAudio (stopAudio micDistorted) = stopAudio micDistorted
    ∧ (stopAudio (init sampleGeometry)).isAudioRunning = false
    ∧ (stopAudio (init sampleGeometry)).currentSource = none
    ∧ (stopAudio (init sampleGeometry)).graph = [] :=
  ⟨(stopAudio_idempotent micDistorted).1, (stopAudio_idempotent micDistorted).2.1,
    (stopAudio_idempotent micDistorted).2.2.1,
    (stopAudio_idempotent (init sampleGeometry)).2.2.2 rfl rfl⟩

theorem animate_camera_active (m : JSMath) (env : FrameEnv) (s : State)
    (hrun : s.isAudioRunning = true) (hctx : s.audioContext = true) :
    (animate m env s).camera
      = cameraShake env (readByte env.dataArray 10) (env.controlsUpdate s.camera) := by
  obtain ⟨h1, h2, h3, h4, h5, -⟩ := colorStep_fields env (controlsStep env s)
  have e3 : (colorStep env (controlsStep env s)).isAudioRunning = true := by
    rw [h3]; exact hrun
  have e4 : (colorStep env (controlsStep env s)).audioContext = true := by
    rw [h4]; exact hctx
  unfold animate audioStep
  rw [e3, e4]
  simp only [Bool.and_self, if_true, h5]
  rfl

theorem readByte_eq (dataArray : Fin 256 → Fin 256) (i : Fin 256) :
    readByte dataArray i.val = ((dataArray i).val : ℚ) := by
  simp [readByte, i.isLt]

theorem shake_bound (r sens : ℚ) (h0 : 0 ≤ r) (h1 : r < 1) (hs : 0 ≤ sens) :
    |(r - 0.5) * (0.05 * (sens * 0.5))| ≤ 0.5 * 0.05 * sens * 0.5 := by
  have hr : |r - 0.5| ≤ 0.5 := by
    rw [abs_le]; constructor <;> norm_num <;> linarith
  have hk : (0 : ℚ) ≤ 0.05 * (sens * 0.5) := by positivity
  rw [abs_mul, abs_of_nonneg hk]
  calc |r - 0.5| * (0.05 * (sens * 0.5)) ≤ 0.5 * (0.05 * (sens * 0.5)) :=
        mul_le_mul_of_nonneg_right hr hk
    _ = 0.5 * 0.05 * sens * 0.5 := by ring

/-- C3. In an audio-active frame with sensitivity `s ≥ 0` and random draws in
`[0, 1)`: when the bass bin `dataArray[10]` is greater than 230, the camera
after the frame is the camera left by `controls.update()` plus, on each axis,
the offset `(r - 0.5) * 0.05 * (s * 0.5)` for that axis's draw `r`, and each
offset has magnitude between 0 and `0.5 * 0.05 * s * 0.5`; when the bass bin is
230 or less, the camera after the frame is the camera left by
`controls.update()`, with no offset on any axis. -/
theorem bass_shake_threshold (m : JSMath) (env : FrameEnv) (s : State)
    (hrun : s.isAudioRunning = true) (hctx : s.audioContext = true)
    (hs : 0 ≤ env.sensitivity)
    (hr1 : 0 ≤ env.random1 ∧ env.random1 < 1)
    (hr2 : 0 ≤ env.random2 ∧ env.random2 < 1)
    (hr3 : 0 ≤ env.random3 ∧ env.random3 < 1) :
    (230 < (env.dataArray 10).val →
      (animate m env s).camera.x
          = (env.controlsUpdate s.camera).x + (env.random1 - 0.5) * 0.05 * (env.sensitivity * 0.5)
      ∧ (animate m env s).camera.y
          = (env.controlsUpdate s.camera).y + (env.random2 - 0.5) * 0.05 * (env.sensitivity * 0.5)
      ∧ (animate m env s).camera.z
          = (env.controlsUpdate s.camera).z + (env.random3 - 0.5) * 0.05 * (env.sensitivity * 0.5)
      ∧ 0 ≤ |(env.random1 - 0.5) * 0.05 * (env.sensitivity * 0.5)|
      ∧ |(env.random1 - 0.5) * 0.05 * (env.sensitivity * 0.5)| ≤ 0.5 * 0.05 * env.sensitivity * 0.5
      ∧ 0 ≤ |(env.random2 - 0.5) * 0.05 * (env.sensitivity * 0.5)|
      ∧ |(env.random2 - 0.5) * 0.05 * (env.sensitivity * 0.5)| ≤ 0.5 * 0.05 * env.sensitivity * 0.5
      ∧ 0 ≤ |(env.random3 - 0.5) * 0.05 * (env.sensitivity * 0.5)|
      ∧ |(env.random3 - 0.5) * 0.05 * (env.sensitivity * 0.5)| ≤ 0.5 * 0.05 * env.sensitivity * 0.5)
    ∧ ((env.dataArray 10).val ≤ 230 →
      (animate m env s).camera = env.controlsUpdate s.camera) := by
  have hcam := animate_camera_active m env s hrun hctx
  have hb : readByte env.dataArray 10 = (((env.dataArray 10).val : ℕ) : ℚ) :=
    readByte_eq env.dataArray 10
  have assoc : ∀ r : ℚ, (r - 0.5) * 0.05 * (env.sensitivity * 0.5)
      = (r - 0.5) * (0.05 * (env.sensitivity * 0.5)) := fun r => by ring
  constructor
  · intro hgt
    have hgt2 : readByte env.dataArray 10 > 230 := by
      rw [hb]; exact_mod_cast hgt
    rw [hcam]
    simp only [cameraShake, hgt2, if_true, assoc]
    exact ⟨trivial, trivial, trivial, abs_nonneg _, shake_bound _ _ hr1.1 hr1.2 hs, abs_nonneg _,
      shake_bound _ _ hr2.1 hr2.2 hs, abs_nonneg _, shake_bound _ _ hr3.1 hr3.2 hs⟩
  · intro hle
    have hle2 : ¬ readByte env.dataArray 10 > 230 := by
      rw [hb, not_lt]; exact_mod_cast hle
    rw [hcam]
    simp only [cameraShake, hle2, if_false]

theorem bass_shake_threshold_witness :
    micActive.isAudioRunning = true ∧ micActive.audioContext = true
    ∧ 0 ≤ loudEnv.sensitivity
    ∧ (0 ≤ loudEnv.random1 ∧ loudEnv.random1 < 1)
    ∧ (0 ≤ loudEnv.random2 ∧ loudEnv.random2 < 1)
    ∧ (0 ≤ loudEnv.random3 ∧ loudEnv.random3 < 1)
    ∧ 230 < (loudEnv.dataArray 10).val
    ∧ (animate sampleMath loudEnv micActive).camera.x
        = (loudEnv.controlsUpdate micActive.camera).x
          + (loudEnv.random1 - 0.5) * 0.05 * (loudEnv.sensitivity * 0.5)
    ∧ (thresholdEnv.dataArray 10).val ≤ 230
    ∧ (animate sampleMath thresholdEnv micActive).camera
        = thresholdEnv.controlsUpdate micActive.camera :=
  have hs : (0 : ℚ) ≤ loudEnv.sensitivity := by norm_num [loudEnv, quietEnv]
  have h1 : 0 ≤ loudEnv.random1 ∧ loudEnv.random1 < 1 := by norm_num [loudEnv, quietEnv]
  have h2 : 0 ≤ loudEnv.random2 ∧ loudEnv.random2 < 1 := by norm_num [loudEnv, quietEnv]
  have h3 : 0 ≤ loudEnv.random3 ∧ loudEnv.random3 < 1 := by norm_num [loudEnv, quietEnv]
  have hb : 230 < (loudEnv.dataArray 10).val := by decide
  have ht : (thresholdEnv.dataArray 10).val ≤ 230 := by decide
  ⟨rfl, rfl, hs, h1, h2, h3, hb,
    ((bass_shake_threshold sampleMath loudEnv micActive rfl rfl hs h1 h2 h3).1 hb).1, ht,
    (bass_shake_threshold sampleMath thresholdEnv micActive rfl rfl hs h1 h2 h3).2 ht⟩

theorem audioStep_color (m : JSMath) (env : FrameEnv) (s : State) :
    (audioStep m env s).colorHue = s.colorHue
    ∧ (audioStep m env s).materialColor = s.materialColor := by
  unfold audioStep
  split <;> simp

theorem animate_color_auto (m : JSMath) (env : FrameEnv) (s : State)
    (h : env.autoColorChecked = true) :
    (animate m env s).colorHue = s.colorHue + 0.002
    ∧ (animate m env s).materialColor = Color.hsl (jsMod (s.colorHue + 0.002) 1) 1 0.5 := by
  obtain ⟨a1, a2⟩ := audioStep_color m env (colorStep env (controlsStep env s))
  unfold animate
  rw [a1, a2]
  simp [colorStep, h, controlsStep]

theorem frames_append (m : JSMath) (envs : List FrameEnv) (env : FrameEnv) (s : State) :
    frames m (envs ++ [env]) s = animate m env (frames m envs s) := by
  simp [frames, List.foldl_append]

theorem frames_concat (m : JSMath) (front back : List FrameEnv) (s : State) :
    frames m (front ++ back) s = frames m back (frames m front s) := by
  simp [frames, List.foldl_append]

theorem animate_colorHue_le (m : JSMath) (env : FrameEnv) (s : State) :
    s.colorHue ≤ (animate m env s).colorHue := by
  obtain ⟨a1, -⟩ := audioStep_color m env (colorStep env (controlsStep env s))
  unfold animate
  rw [a1]
  unfold colorStep
  split
  · show s.colorHue ≤ s.colorHue + 0.002
    norm_num
  · exact le_refl _

theorem frames_colorHue_le (m : JSMath) (envs : List FrameEnv) (s : State) :
    s.colorHue ≤ (frames m envs s).colorHue := by
  induction envs using List.reverseRecOn with
  | nil => exact le_refl _
  | append_singleton envs env ih =>
    rw [frames_append]
    exact le_trans ih (animate_colorHue_le m env _)

/-- Over the first 10,000 auto-colour frames each frame adds at least 0.0019 to
`colorHue`. -/
theorem frames_colorHue_lower (m : JSMath) (envs : List FrameEnv) (s : State)
    (h0 : 0 ≤ s.colorHue) (hauto : ∀ env ∈ envs, env.autoColorChecked = true)
    (hlen : envs.length ≤ 10000) :
    0.0019 * (envs.length : ℚ) ≤ (frames m envs s).colorHue := by
  induction envs using List.reverseRecOn with
  | nil => simpa [frames] using h0
  | append_singleton envs env ih =>
    have h1 : ∀ e ∈ envs, e.autoColorChecked = true :=
      fun e he => hauto e (List.mem_append_left _ he)
    have h2 : env.autoColorChecked = true := hauto env (by simp)
    have hl : envs.length ≤ 10000 := by
      simp only [List.length_append, List.length_singleton] at hlen; omega
    have ih' := ih h1 hl
    rw [frames_append, (animate_color_auto m env _ h2).1]
    simp only [List.length_append, List.length_singleton]
    push_cast
    linarith

theorem jsMod_one_of_nonneg (a : ℚ) (h : 0 ≤ a) : jsMod a 1 = Int.fract a := by
  unfold jsMod jsTrunc
  rw [div_one, if_pos h, one_mul]
  rfl

/-- C5, as amended. With auto-colour enabled on every frame and `colorHue`
starting at 0, the state `colorHue` is only ever increased and never reduced:
after any number of frames it is non-negative, no further frame lowers it,
within the first 10,000 frames each auto-colour frame raises it, and from the
600th frame on it is at least 1, outside `[0, 1)`.  The reduction modulo 1 is
made where the hue is used: the hue given to `setHSL` in the last frame is
`colorHue % 1`, and that value lies in `[0, 1)` after every frame. -/
theorem hue_wraparound (m : JSMath) (envs : List FrameEnv) (s : State)
    (h0 : s.colorHue = 0) (hauto : ∀ env ∈ envs, env.autoColorChecked = true) :
    0 ≤ (frames m envs s).colorHue
    ∧ (∀ env : FrameEnv,
        (frames m envs s).colorHue ≤ (animate m env (frames m envs s)).colorHue)
    ∧ (∀ env : FrameEnv, env.autoColorChecked = true → envs.length ≤ 10000 →
        (frames m envs s).colorHue < (animate m env (frames m envs s)).colorHue)
    ∧ (600 ≤ envs.length → 1 ≤ (frames m envs s).colorHue)
    ∧ (envs ≠ [] →
        (frames m envs s).materialColor = Color.hsl (jsMod (frames m envs s).colorHue 1) 1 0.5)
    ∧ 0 ≤ jsMod (frames m envs s).colorHue 1
    ∧ jsMod (frames m envs s).colorHue 1 < 1 := by
  have hnn : (0 : ℚ) ≤ (frames m envs s).colorHue := by
    have := frames_colorHue_le m envs s
    rw [h0] at this; exact this
  refine ⟨hnn, fun env => animate_colorHue_le m env _, fun env he _ => ?_, fun hn => ?_,
    fun hne => ?_, ?_, ?_⟩
  · rw [(animate_color_auto m env _ he).1]
    norm_num
  · have hsplit : frames m envs s = frames m (envs.drop 600) (frames m (envs.take 600) s) := by
      rw [← frames_concat, List.take_append_drop]
    have hlen : (envs.take 600).length = 600 := by
      rw [List.length_take]; omega
    have hlow := frames_colorHue_lower m (envs.take 600) s (le_of_eq h0.symm)
      (fun e he => hauto e (List.mem_of_mem_take he)) (by rw [hlen]; norm_num)
    rw [hlen] at hlow
    have hmono := frames_colorHue_le m (envs.drop 600) (frames m (envs.take 600) s)
    rw [← hsplit] at hmono
    have h114 : (1 : ℚ) ≤ 0.0019 * ((600 : ℕ) : ℚ) := by norm_num
    exact le_trans h114 (le_trans hlow hmono)
  · obtain ⟨front, last, rfl⟩ := (List.eq_nil_or_concat envs).resolve_left hne
    rw [List.concat_eq_append] at hauto ⊢
    have h2 : last.autoColorChecked = true := hauto last (by simp)
    rw [frames_append, (animate_color_auto m last _ h2).2, (animate_color_auto m last _ h2).1]
  · rw [jsMod_one_of_nonneg _ hnn]; exact Int.fract_nonneg _
  · rw [jsMod_one_of_nonneg _ hnn]; exact Int.fract_lt_one _

theorem hue_wraparound_witness :
    (init sampleGeometry).colorHue = 0
    ∧ (∀ env ∈ List.replicate 600 quietEnv, env.autoColorChecked = true)
    ∧ 600 ≤ (List.replicate 600 quietEnv).length
    ∧ 1 ≤ (frames sampleMath (List.replicate 600 quietEnv) (init sampleGeometry)).colorHue
    ∧ jsMod (frames sampleMath (List.replicate 600 quietEnv) (init sampleGeometry)).colorHue 1 < 1 :=
  have ha : ∀ env ∈ List.replicate 600 quietEnv, env.autoColorChecked = true :=
    fun env he => by rw [List.eq_of_mem_replicate he]; rfl
  have hl : 600 ≤ (List.replicate 600 quietEnv).length := by
    rw [List.length_replicate]
  ⟨rfl, ha, hl,
    (hue_wraparound sampleMath (List.replicate 600 quietEnv) (init sampleGeometry) rfl
      ha).2.2.2.1 hl,
    (hue_wraparound sampleMath (List.replicate 600 quietEnv) (init sampleGeometry) rfl
      ha).2.2.2.2.2.2⟩

/-- C5 as stated fails: with auto-colour enabled and `colorHue` starting at 0,
after 10,000 frames `colorHue` is at least 1, outside `[0, 1)`. -/
theorem hue_state_not_wrapped :
    (init sampleGeometry).colorHue = 0
    ∧ quietEnv.autoColorChecked = true
    ∧ 1 ≤ (frames sampleMath (List.replicate 10000 quietEnv) (init sampleGeometry)).colorHue
    ∧ ¬ (0 ≤ (frames sampleMath (List.replicate 10000 quietEnv) (init sampleGeometry)).colorHue
        ∧ (frames sampleMath (List.replicate 10000 quietEnv) (init sampleGeometry)).colorHue
          < 1) := by
  have ha : ∀ env ∈ List.replicate 10000 quietEnv, env.autoColorChecked = true :=
    fun env he => by rw [List.eq_of_mem_replicate he]; rfl
  have h0 : (0 : ℚ) ≤ (init sampleGeometry).colorHue := le_of_eq rfl
  have hlow := frames_colorHue_lower sampleMath (List.replicate 10000 quietEnv)
    (init sampleGeometry) h0 ha (by rw [List.length_replicate])
  rw [List.length_replicate] at hlow
  have h1 : (1 : ℚ)
      ≤ (frames sampleMath (List.replicate 10000 quietEnv) (init sampleGeometry)).colorHue := by
    have h19 : (1 : ℚ) ≤ 0.0019 * ((10000 : ℕ) : ℚ) := by norm_num
    exact le_trans h19 hlow
  exact ⟨rfl, rfl, h1, fun h => absurd h.2 (not_lt.mpr h1)⟩

/-- C7. For a dropped file whose declared type does not begin with `audio/`,
`handleDrop` only hides the drop overlay and sets the status to
`Not an audio file!` in red: `isAudioRunning`, `currentSource`, the audio
graph, the live geometry and the pending requests are those of the state
before, so neither `playAudioFile` nor `stopAudio` ran.  For a type that begins
with `audio/`, `handleDrop` is `playAudioFile` after hiding the overlay, and the
status it leaves is `Loading File...` in yellow, not the error. -/
theorem handleDrop_rejects_non_audio (type : String) (s : State) :
    (startsWithAudio type = false →
      handleDrop (some type) s
          = { s with
              dropOverlayHidden := true
              statusText := "Not an audio file!"
              statusColor := "red" }
      ∧ (handleDrop (some type) s).isAudioRunning = s.isAudioRunning
      ∧ (handleDrop (some type) s).currentSource = s.currentSource
      ∧ (handleDrop (some type) s).graph = s.graph
      ∧ (handleDrop (some type) s).position = s.position
      ∧ (handleDrop (some type) s).pendingRead = s.pendingRead
      ∧ (handleDrop (some type) s).pendingDecode = s.pendingDecode
      ∧ (handleDrop (some type) s).statusText = "Not an audio file!"
      ∧ (handleDrop (some type) s).statusColor = "red")
    ∧ (startsWithAudio type = true →
      handleDrop (some type) s = playAudioFile { s with dropOverlayHidden := true }
      ∧ (handleDrop (some type) s).pendingRead = s.pendingRead + 1
      ∧ (handleDrop (some type) s).statusText = "Loading File..."
      ∧ (handleDrop (some type) s).statusColor = "yellow") := by
  constructor
  · intro h
    simp [handleDrop, h]
  · intro h
    have e : handleDrop (some type) s = playAudioFile { s with dropOverlayHidden := true } := by
      simp [handleDrop, h]
    rw [e]
    obtain ⟨-, -, -, -, -, -, h7, -⟩ := stopAudio_fields { s with dropOverlayHidden := true }
    simp [playAudioFile, h7]

theorem handleDrop_rejects_non_audio_witness :
    startsWithAudio "text/plain" = false
    ∧ micActive.isAudioRunning = true
    ∧ (handleDrop (some "text/plain") micActive).isAudioRunning = true
    ∧ (handleDrop (some "text/plain") micActive).currentSource = micActive.currentSource
    ∧ (handleDrop (some "text/plain") micActive).statusText = "Not an audio file!"
    ∧ startsWithAudio "audio/mpeg" = true
    ∧ (handleDrop (some "audio/mpeg") micActive).statusText = "Loading File..." :=
  have h := (handleDrop_rejects_non_audio "text/plain" micActive).1 (by decide)
  have k := (handleDrop_rejects_non_audio "audio/mpeg" micActive).2 (by decide)
  ⟨by decide, rfl, h.2.1, h.2.2.1, h.2.2.2.2.2.2.2.1, by decide, k.2.2.1⟩

theorem handleDrop_not_start (file : Option String) (s : State)
    (h : (Event.drop file).isStart = false) :
    handleDrop file s
      = { s with
          dropOverlayHidden := true
          statusText := "Not an audio file!"
          statusColor := "red" } := by
  cases file with
  | none => rfl
  | some type =>
    have h1 : startsWithAudio type = false := h
    simp [handleDrop, h1]

/-- One event that is not a start event: the session is active afterwards only
if it was active before or the event is an activation; the pending requests do
not grow; an activation needs a pending request. -/
theorem step_not_start (m : JSMath) (s t : State) (e : Event) (hns : e.isStart = false)
    (hs : step m s e = some t) :
    (t.isAudioRunning = true → s.isAudioRunning = true ∨ e.isActivation = true)
    ∧ pendingRequests t ≤ pendingRequests s
    ∧ (e.isActivation = true → 0 < pendingRequests s) := by
  cases e with
  | clickStart => simp [Event.isStart] at hns
  | micGranted =>
    simp only [step] at hs
    split at hs
    · rename_i hp
      simp only [Option.some.injEq] at hs; subst hs
      refine ⟨fun _ => Or.inr rfl, ?_, fun _ => ?_⟩
      · simp only [pendingRequests, startMicrophoneGranted]; omega
      · simp only [pendingRequests]; omega
    · simp at hs
  | micDenied =>
    simp only [step] at hs
    split at hs
    · simp only [Option.some.injEq] at hs; subst hs
      refine ⟨fun h => Or.inl h, ?_, fun h => by simp [Event.isActivation] at h⟩
      simp only [pendingRequests, startMicrophoneDenied]; omega
    · simp at hs
  | drop file =>
    simp only [step, Option.some.injEq] at hs; subst hs
    rw [handleDrop_not_start file s hns]
    exact ⟨fun h => Or.inl h, le_refl _, fun h => by simp [Event.isActivation] at h⟩
  | fileRead =>
    simp only [step] at hs
    split at hs
    · rename_i hp
      simp only [Option.some.injEq] at hs; subst hs
      obtain ⟨-, -, -, a4, -, -, a7, a8, a9⟩ := getAudioContext_fields s
      refine ⟨fun h => Or.inl ?_, ?_, fun h => by simp [Event.isActivation] at h⟩
      · simpa [readerOnload, a4] using h
      · simp only [pendingRequests, readerOnload, a7, a8, a9]; omega
    · simp at hs
  | fileReadFailed =>
    simp only [step] at hs
    split at hs
    · simp only [Option.some.injEq] at hs; subst hs
      refine ⟨fun h => Or.inl h, ?_, fun h => by simp [Event.isActivation] at h⟩
      simp only [pendingRequests]; omega
    · simp at hs
  | decodeSucceeded =>
    simp only [step] at hs
    split at hs
    · rename_i hp
      simp only [Option.some.injEq] at hs; subst hs
      obtain ⟨-, -, -, -, -, -, a7, a8, a9⟩ :=
        getAudioContext_fields { s with pendingDecode := s.pendingDecode - 1 }
      refine ⟨fun _ => Or.inr rfl, ?_, fun _ => ?_⟩
      · simp only [pendingRequests, decodeSucceeded, startFilePlayback, a7, a8, a9]; omega
      · simp only [pendingRequests]; omega
    · simp at hs
  | decodeFailed =>
    simp only [step] at hs
    split at hs
    · simp only [Option.some.injEq] at hs; subst hs
      refine ⟨fun h => Or.inl h, ?_, fun h => by simp [Event.isActivation] at h⟩
      simp only [pendingRequests, decodeFailed]; omega
    · simp at hs
  | clickStop =>
    simp only [step, Option.some.injEq] at hs; subst hs
    obtain ⟨h1, -, -, -, -, h6, h7, h8⟩ := stopAudio_fields s
    refine ⟨fun h => by rw [h1] at h; simp at h, ?_, fun h => by simp [Event.isActivation] at h⟩
    simp only [pendingRequests, h6, h7, h8]; exact le_refl _
  | frame env =>
    simp only [step, Option.some.injEq] at hs; subst hs
    obtain ⟨-, a2, -, -, -, a6, a7, a8, -⟩ := animate_fields m env s
    refine ⟨fun h => Or.inl (by rw [a2] at h; exact h), ?_,
      fun h => by simp [Event.isActivation] at h⟩
    simp only [pendingRequests, a6, a7, a8]; exact le_refl _

theorem run_not_start (m : JSMath) (evs : List Event) :
    ∀ (s t : State), (∀ e ∈ evs, e.isStart = false) → run m s evs = some t →
      (t.isAudioRunning = true →
        s.isAudioRunning = true ∨ (0 < pendingRequests s ∧ ∃ e ∈ evs, e.isActivation = true)) := by
  induction evs with
  | nil =>
    intro s t _ hr ht
    simp only [run, Option.some.injEq] at hr; subst hr
    exact Or.inl ht
  | cons e es ih =>
    intro s t hns hr ht
    simp only [run] at hr
    cases hs : step m s e with
    | none => simp [hs] at hr
    | some s1 =>
      rw [hs] at hr
      have he : e.isStart = false := hns e (by simp)
      obtain ⟨p1, p2, p3⟩ := step_not_start m s s1 e he hs
      rcases ih s1 t (fun x hx => hns x (List.mem_cons_of_mem _ hx)) hr ht with h | ⟨hp, x, hx, hxa⟩
      · rcases p1 h with h' | h'
        · exact Or.inl h'
        · exact Or.inr ⟨p3 h', e, by simp, h'⟩
      · exact Or.inr ⟨lt_of_lt_of_le hp p2, x, List.mem_cons_of_mem _ hx, hxa⟩

theorem teardownNode_fields (n : SourceNode) :
    (teardownNode n).id = n.id
    ∧ (teardownNode n).toAnalyser = false
    ∧ (teardownNode n).toDestination = false
    ∧ ((teardownNode n).hasStop = true → (teardownNode n).playing = false)
    ∧ ((teardownNode n).hasStop = false → (teardownNode n).tracksLive = false) := by
  cases hh : n.hasStop <;> cases hp : n.playing <;> simp [teardownNode, nodeStop, hh, hp]

theorem stopAudio_tracked_node (s : State) (c : Nat) (hc : s.currentSource = some c)
    (n : SourceNode) (hn : n ∈ (stopAudio s).graph) (hid : n.id = c) :
    n.toAnalyser = false ∧ n.toDestination = false
    ∧ (n.hasStop = true → n.playing = false) ∧ (n.hasStop = false → n.tracksLive = false) := by
  have hg : (stopAudio s).graph
      = s.graph.map (fun (k : SourceNode) => if k.id = c then teardownNode k else k) := by
    simp [stopAudio, hc]
  rw [hg, List.mem_map] at hn
  obtain ⟨k, -, hk⟩ := hn
  by_cases hkc : k.id = c
  · rw [if_pos hkc] at hk
    subst hk
    exact (teardownNode_fields k).2
  · rw [if_neg hkc] at hk
    subst hk
    exact absurd hid hkc

/-- C8, as amended. `stopAudio` makes the session inactive at once
(`isAudioRunning = false`, `currentSource = null`, the tracked node
disconnected from the analyser and the destination, its playback or its capture
tracks stopped).  After it, along any events none of which is a start event,
the session is active again only if a request was pending when `stopAudio` ran
and one of the events is the completion that activates it (microphone granted
or decode succeeded): `stopAudio` does not cancel pending requests.  With no
request pending at the stop, the session stays inactive. -/
theorem stop_then_inactive (m : JSMath) (s t : State) (evs : List Event)
    (hns : ∀ e ∈ evs, e.isStart = false) (hr : run m (stopAudio s) evs = some t) :
    (stopAudio s).isAudioRunning = false
    ∧ (stopAudio s).currentSource = none
    ∧ (∀ c, s.currentSource = some c → ∀ n ∈ (stopAudio s).graph, n.id = c →
        n.toAnalyser = false ∧ n.toDestination = false
        ∧ (n.hasStop = true → n.playing = false) ∧ (n.hasStop = false → n.tracksLive = false))
    ∧ (t.isAudioRunning = true →
        0 < s.pendingMic + s.pendingRead + s.pendingDecode
        ∧ ∃ e ∈ evs, e.isActivation = true)
    ∧ (s.pendingMic + s.pendingRead + s.pendingDecode = 0 → t.isAudioRunning = false) := by
  obtain ⟨h1, h2, -, -, -, h6, h7, h8⟩ := stopAudio_fields s
  have hp : pendingRequests (stopAudio s) = s.pendingMic + s.pendingRead + s.pendingDecode := by
    simp only [pendingRequests, h6, h7, h8]
  have key : t.isAudioRunning = true →
      0 < s.pendingMic + s.pendingRead + s.pendingDecode ∧ ∃ e ∈ evs, e.isActivation = true := by
    intro ht
    rcases run_not_start m evs (stopAudio s) t hns hr ht with h | ⟨h, hex⟩
    · rw [h1] at h; simp at h
    · rw [hp] at h; exact ⟨h, hex⟩
  refine ⟨h1, h2, fun c hc n hn hid => stopAudio_tracked_node s c hc n hn hid, key, fun h0 => ?_⟩
  cases ht : t.isAudioRunning with
  | false => rfl
  | true => have := (key ht).1; omega

theorem stop_then_inactive_witness :
    (∀ e ∈ [Event.micGranted], e.isStart = false)
    ∧ run sampleMath (stopAudio micRequested) [Event.micGranted]
        = some (startMicrophoneGranted (stopAudio micRequested))
    ∧ (startMicrophoneGranted (stopAudio micRequested)).isAudioRunning = true
    ∧ 0 < micRequested.pendingMic + micRequested.pendingRead + micRequested.pendingDecode :=
  have hns : ∀ e ∈ [Event.micGranted], e.isStart = false := fun e he => by
    rw [List.mem_singleton] at he; rw [he]; rfl
  have hr : run sampleMath (stopAudio micRequested) [Event.micGranted]
      = some (startMicrophoneGranted (stopAudio micRequested)) := rfl
  ⟨hns, hr, rfl,
    ((stop_then_inactive sampleMath micRequested _ [Event.micGranted] hns hr).2.2.2.1 rfl).1⟩

/-- C8 as stated fails: a microphone request still pending when the stop
button is clicked activates the microphone when it is granted afterwards, and a
file still loading when the stop button is clicked starts playing when its
decode succeeds, with no start event after the stop. -/
theorem pending_request_activates_after_stop :
    (run sampleMath (init sampleGeometry)
        [.clickStart, .clickStop, .micGranted]).map
      (fun t => (t.isAudioRunning, t.currentSource, t.statusText))
      = some (true, some 0, "Listening to Mic...")
    ∧ (run sampleMath (init sampleGeometry)
        [.drop (some "audio/mpeg"), .clickStop, .fileRead, .decodeSucceeded]).map
      (fun t => (t.isAudioRunning, t.currentSource, t.statusText))
      = some (true, some 0, "Playing File")
    ∧ Event.isStart .micGranted = false ∧ Event.isStart .fileRead = false
    ∧ Event.isStart .decodeSucceeded = false := by
  refine ⟨by decide, by decide, rfl, rfl, rfl⟩

theorem animate_idle_eq (m : JSMath) (env : FrameEnv) (s : State)
    (h : s.isAudioRunning = false) :
    animate m env s
      = { colorStep env (controlsStep env s) with
          sphereRotationY := s.sphereRotationY + 0.002
          starRotationY := s.starRotationY + 0.0005 } := by
  have e : (colorStep env (controlsStep env s)).isAudioRunning = false := by
    rw [(colorStep_fields env (controlsStep env s)).2.2.1]; exact h
  unfold animate audioStep
  rw [e]
  simp only [Bool.false_and, Bool.false_eq_true, if_false]
  unfold colorStep
  split <;> simp [controlsStep, h]

/-- C9, as amended. In every state reached from `init` on a geometry `g` by
any sequence of events (frames, starts, completions, stops): the live buffer
has as many vertices as `g`; `originalPositions` is the flat copy of `g`, vertex
`i` at indices `3i, 3i+1, 3i+2`; and while `isAudioRunning` is false the live
buffer is `g`.  An idle frame runs `controls.update()` and the colour block, as
every frame does, and besides these changes only the mesh rotation
(`y += 0.002`) and the starfield rotation (`y += 0.0005`): the live buffer is
untouched, the camera is the one left by `controls.update()`, and the starfield
rotation about `x` is kept. -/
theorem idle_geometry_invariant (m : JSMath) (g : List Vec3) (evs : List Event) (s : State)
    (h : run m (init g) evs = some s) :
    s.position.length = g.length
    ∧ s.originalPositions = createMainSphere g
    ∧ (∀ i, i < g.length →
        readFlat s.originalPositions (i * 3) = getX g i
        ∧ readFlat s.originalPositions (i * 3 + 1) = getY g i
        ∧ readFlat s.originalPositions (i * 3 + 2) = getZ g i)
    ∧ (s.isAudioRunning = false → s.position = g)
    ∧ (s.isAudioRunning = false → ∀ env : FrameEnv,
        animate m env s
          = { colorStep env (controlsStep env s) with
              sphereRotationY := s.sphereRotationY + 0.002
              starRotationY := s.starRotationY + 0.0005 }
        ∧ (animate m env s).position = s.position
        ∧ (animate m env s).camera = env.controlsUpdate s.camera
        ∧ (animate m env s).sphereRotationY = s.sphereRotationY + 0.002
        ∧ (animate m env s).starRotationY = s.starRotationY + 0.0005
        ∧ (animate m env s).starRotationX = s.starRotationX) := by
  obtain ⟨i1, i2, i3⟩ := GeometryInv_run m evs (GeometryInv_init g) h
  refine ⟨i2, by rw [i1, createMainSphere_eq], ?_, i3, ?_⟩
  · intro i hi
    have hv := vertexAt_flatten3 g i hi
    rw [← i1] at hv
    have hd : g.getD i ⟨0, 0, 0⟩ = g[i] := by
      simp [List.getD_eq_getElem?_getD, List.getElem?_eq_getElem hi]
    simp only [getX, getY, getZ, hd, ← hv, vertexAt]
    exact ⟨trivial, trivial, trivial⟩
  · intro hidle env
    have e := animate_idle_eq m env s hidle
    obtain ⟨c1, -, -, -, c5, -⟩ := colorStep_fields env (controlsStep env s)
    refine ⟨e, ?_, ?_, ?_, ?_, ?_⟩
    · rw [e]; exact c1
    · rw [e]; exact c5
    · rw [e]
    · rw [e]
    · rw [e]; unfold colorStep; split <;> rfl

theorem idle_geometry_invariant_witness :
    run sampleMath (init sampleGeometry) [.clickStart, .micGranted, .frame loudEnv, .clickStop]
        = some (stopAudio micDistorted)
    ∧ (stopAudio micDistorted).isAudioRunning = false
    ∧ (stopAudio micDistorted).position = sampleGeometry
    ∧ (animate sampleMath loudEnv (stopAudio micDistorted)).position
        = (stopAudio micDistorted).position :=
  have hr : run sampleMath (init sampleGeometry)
      [.clickStart, .micGranted, .frame loudEnv, .clickStop] = some (stopAudio micDistorted) := rfl
  have h := idle_geometry_invariant sampleMath sampleGeometry _ (stopAudio micDistorted) hr
  have hi : (stopAudio micDistorted).isAudioRunning = false := (stopAudio_fields micDistorted).1
  ⟨hr, hi, h.2.2.2.1 hi, (h.2.2.2.2 hi loudEnv).2.1⟩

/-- C9 as stated fails: an idle frame with the auto-colour box checked also
advances `colorHue` and recolours the mesh, so it does not change only the two
rotations. -/
theorem idle_frame_changes_color :
    (init sampleGeometry).isAudioRunning = false
    ∧ quietEnv.autoColorChecked = true
    ∧ (init sampleGeometry).colorHue = 0
    ∧ (animate sampleMath quietEnv (init sampleGeometry)).colorHue = 0.002
    ∧ (animate sampleMath quietEnv (init sampleGeometry)).colorHue
        ≠ (init sampleGeometry).colorHue
    ∧ (animate sampleMath quietEnv (init sampleGeometry)).materialColor
        ≠ (init sampleGeometry).materialColor := by
  obtain ⟨h1, h2⟩ := animate_color_auto sampleMath quietEnv (init sampleGeometry) rfl
  have h0 : (init sampleGeometry).colorHue = 0 := rfl
  have hc : (init sampleGeometry).materialColor = Color.hex 0x00ffcc := rfl
  refine ⟨rfl, rfl, rfl, ?_, ?_, ?_⟩
  · rw [h1, h0]; norm_num
  · rw [h1, h0]; norm_num
  · rw [h2, hc]; simp

/-- C4. Two audio files dropped one after the other, the second before the
first has finished loading, each decode then succeeding: both buffer sources
are connected to the analyser and playing, `currentSource` tracks only the
second, and after `stopAudio` the first still feeds the analyser and plays,
with `currentSource` null.  The same happens when the microphone is granted
while a file is still loading. -/
theorem overlapping_starts_leave_two_sources :
    (run sampleMath (init sampleGeometry)
        [.drop (some "audio/mpeg"), .drop (some "audio/mpeg"), .fileRead, .fileRead,
          .decodeSucceeded, .decodeSucceeded]).map
      (fun t => ((feedingAnalyser t).map (fun n => (n.id, n.playing)), t.currentSource))
      = some ([(0, true), (1, true)], some 1)
    ∧ (run sampleMath (init sampleGeometry)
        [.drop (some "audio/mpeg"), .drop (some "audio/mpeg"), .fileRead, .fileRead,
          .decodeSucceeded, .decodeSucceeded, .clickStop]).map
      (fun t => ((feedingAnalyser t).map (fun n => (n.id, n.playing)), t.currentSource))
      = some ([(0, true)], none)
    ∧ (run sampleMath (init sampleGeometry)
        [.drop (some "audio/mpeg"), .fileRead, .clickStart, .micGranted, .decodeSucceeded]).map
      (fun t => ((feedingAnalyser t).map (fun n => (n.id, n.hasStop, n.tracksLive)),
        t.currentSource))
      = some ([(0, false, true), (1, true, false)], some 1) := by
  refine ⟨by decide, by decide, by decide⟩

end GlobeVisualizer
